import Mathlib

/-!
Verification of the casino repository's poker engine and chip ledger.

Shallow embedding of `src/poker.py` (classes `HandEvaluator`, `PokerTable`) and
`src/token_manager.py` (class `TokenManager`).  Python integers are modelled as
`Int` (chips, bets, amounts) or `Nat` (indices, ids); Python lists as `List`;
the ledger dict as a function `String → Option Account`.  Python's stable
`sorted(..., reverse=True)` is modelled with `List.insertionSort` under the
reversed (non-strict) comparison: a stable sort under the same total preorder
produces the same list as Python's stable Timsort, and it reduces inside
`decide`/`rfl` proofs.
Display-only fields of the source (usernames shown in embeds, `showdown_hands`,
channel ids, the unused `side_pots` list, persistence calls) carry no game
logic; the ones that do not influence any studied behaviour are omitted and
noted at their definition sites.
-/

/-- `Suit` enum from poker.py. -/
inductive Suit where
  | hearts | diamonds | clubs | spades
  deriving DecidableEq, Repr, Fintype

/-- `Card` dataclass: `rank` is the `numeric_value` (2..14), as that is the only
rank attribute `evaluate_hand` reads (`display` is rendering only). -/
structure Card where
  rank : Nat
  suit : Suit
  deriving DecidableEq, Repr

def dummyCard : Card := { rank := 0, suit := Suit.hearts }

/-- The straight search of `evaluate_hand`
(`for i in range(len(unique_ranks) - 4): if unique_ranks[i] - unique_ranks[i+4] == 4`):
scan the strictly descending distinct ranks through every window of five
consecutive entries and return the first window whose ends differ by 4
(its top entry is the straight-high). -/
def straightScan : List Nat → Option Nat
  | a :: b :: c :: d :: e :: rest =>
      if a - e == 4 then some a else straightScan (b :: c :: d :: e :: rest)
  | _ => none

/-- `HandEvaluator.evaluate_hand(cards)` from poker.py, lines 82-151
(the method body is split in the source file around the `Poker` cog header;
its statements are embedded in their original order). -/
def evaluate_hand (cards : List Card) : Nat × List Nat :=
  if cards.length < 5 then (0, [])
  else
    -- sorted_cards = sorted(cards, key=rank, reverse=True)  (stable)
    let sorted_cards := cards.insertionSort (fun a b => b.rank ≤ a.rank)
    let ranks := sorted_cards.map (fun c => c.rank)
    let suits := sorted_cards.map (fun c => c.suit)
    -- is_flush = max(suit_counts.values()) >= 5
    let is_flush := suits.any (fun s => decide (5 ≤ suits.count s))
    -- unique_ranks = sorted(set(ranks), reverse=True)
    let unique_ranks := ranks.dedup.insertionSort (fun a b => b ≤ a)
    -- regular straight, then the A-2-3-4-5 wheel check
    let reg := straightScan unique_ranks
    let straight_high : Option Nat :=
      match reg with
      | some h => some h
      | none =>
          if [14, 5, 4, 3, 2].all (fun r => unique_ranks.contains r)
          then some 5 else none
    let is_straight := straight_high.isSome
    let sh := straight_high.getD 0
    -- counts = sorted(rank_counts.items(), key=lambda x: (x[1], x[0]), reverse=True)
    let counts := (ranks.dedup.map (fun r => (r, ranks.count r))).insertionSort
        (fun a b => b.2 < a.2 ∨ (b.2 = a.2 ∧ b.1 ≤ a.1))
    let c0 := counts.getD 0 (0, 0)
    let c1 := counts.getD 1 (0, 0)
    let c2 := counts.getD 2 (0, 0)
    if is_straight && is_flush then (8, [sh])            -- straight flush
    else if c0.2 == 4 then (7, [c0.1, c1.1])             -- four of a kind
    else if c0.2 == 3 && c1.2 == 2 then (6, [c0.1, c1.1])  -- full house
    else if is_flush then
      (5, ((sorted_cards.filter (fun c => decide (5 ≤ suits.count c.suit))).map
            (fun c => c.rank)).take 5)                   -- flush
    else if is_straight then (4, [sh])                   -- straight
    else if c0.2 == 3 then
      (3, c0.1 :: ((counts.drop 1).take 2).map (fun c => c.1))  -- three of a kind
    else if c0.2 == 2 && c1.2 == 2 then
      (2, [max c0.1 c1.1, min c0.1 c1.1, c2.1])          -- two pair
    else if c0.2 == 2 then
      (1, c0.1 :: ((counts.drop 1).take 3).map (fun c => c.1))  -- one pair
    else (0, unique_ranks.take 5)                        -- high card

/-- Modelled from the spec (§4.1 step 3): a genuine 5-card straight flush —
the SAME five cards form both the straight and the flush: all of one suit and
five consecutive distinct ranks (ace may count low, the wheel). Used only to
compare the code's classification with the specified one. -/
def specStraightFlush5 (cards : List Card) : Bool :=
  let rs := (cards.map (fun c => c.rank)).dedup.insertionSort (fun a b => b ≤ a)
  cards.length == 5 && rs.length == 5 &&
  cards.all (fun x => x.suit == (cards.headD dummyCard).suit) &&
  ((straightScan rs).isSome || [14, 5, 4, 3, 2].all (fun r => rs.contains r))

/-- Seven cards holding a hearts flush {2,3,4,5,K} and a mixed-suit straight
2-3-4-5-6 that do not share one 5-card subset (no 6 of hearts). -/
def sfCounterCards : List Card :=
  [⟨2, Suit.hearts⟩, ⟨3, Suit.hearts⟩, ⟨4, Suit.hearts⟩, ⟨5, Suit.hearts⟩,
   ⟨13, Suit.hearts⟩, ⟨6, Suit.spades⟩, ⟨9, Suit.diamonds⟩]

/-! ## PokerTable state machine (poker.py, class `PokerTable`) -/

/-- `GameState` enum. -/
inductive GameState where
  | waiting | preflop | flop | turn | river | showdown | ended
  deriving DecidableEq, Repr

/-- `Player` dataclass.  `username` is display-only but kept; `cards` are the
hole cards. -/
structure Player where
  user_id : Nat
  username : String
  chips : Int := 1000
  current_bet : Int := 0
  total_bet : Int := 0
  cards : List Card := []
  folded : Bool := false
  all_in : Bool := false
  acted : Bool := false
  deriving DecidableEq, Repr

def dummyPlayer : Player := { user_id := 0, username := "" }

/-- `PokerTable` fields that carry game logic.  Omitted from the source:
`channel_id`, `private_channel_id`, `lobby_message_id` (chat plumbing),
`side_pots` (assigned `[]` and never read), `showdown_hands` (display only). -/
structure PokerTable where
  players : List Player
  deck : List Card
  community_cards : List Card
  pot : Int
  current_bet : Int
  small_blind : Int
  big_blind : Int
  dealer_position : Nat
  current_player : Nat
  state : GameState
  game_active : Bool
  deriving Repr

/-- `self.players[i] = f(self.players[i])` — in-place mutation of the player
object at index `i` (out-of-range indices leave the list unchanged; the source
never indexes out of range thanks to the `% len` arithmetic). -/
def modifyPlayer : List Player → Nat → (Player → Player) → List Player
  | [], _, _ => []
  | p :: ps, 0, f => f p :: ps
  | p :: ps, n + 1, f => p :: modifyPlayer ps n f

/-- `Deck.deal`: Python `list.pop()` removes and returns the LAST element.
Popping an empty deck raises IndexError in Python; that case is unreachable in
the studied runs (we always supply decks that are long enough) and returns a
dummy here. -/
def dealCard (deck : List Card) : Card × List Card :=
  match deck.getLast? with
  | some c => (c, deck.dropLast)
  | none => (dummyCard, [])

/-- One pass of `for player in self.players: if not player.folded:
player.cards.append(self.deck.deal())` — deals one card to each non-folded
player in seat order. -/
def dealRound : List Player → List Card → List Player × List Card
  | [], deck => ([], deck)
  | p :: ps, deck =>
    if p.folded then
      let r := dealRound ps deck
      (p :: r.1, r.2)
    else
      let c := dealCard deck
      let r := dealRound ps c.2
      ({ p with cards := p.cards ++ [c.1] } :: r.1, r.2)

/-- `PokerTable.post_blinds` (poker.py lines 263-286).  Note the source never
sets `all_in` here, even when a blind consumes the whole stack. -/
def post_blinds (t : PokerTable) : PokerTable :=
  let n := t.players.length
  let sb_pos := if n == 2 then t.dealer_position else (t.dealer_position + 1) % n
  let bb_pos := if n == 2 then (t.dealer_position + 1) % n else (t.dealer_position + 2) % n
  -- small blind
  let sbp := t.players.getD sb_pos dummyPlayer
  let sb_amount := min t.small_blind sbp.chips
  let players1 := modifyPlayer t.players sb_pos (fun p =>
    { p with chips := p.chips - sb_amount, current_bet := sb_amount, total_bet := sb_amount })
  -- big blind
  let bbp := players1.getD bb_pos dummyPlayer
  let bb_amount := min t.big_blind bbp.chips
  let players2 := modifyPlayer players1 bb_pos (fun p =>
    { p with chips := p.chips - bb_amount, current_bet := bb_amount, total_bet := bb_amount })
  { t with players := players2,
           pot := t.pot + sb_amount + bb_amount,
           current_bet := bb_amount }

/-- `PokerTable.start_game` (poker.py lines 230-261).  `self.deck.reset()`
shuffles uniformly at random; the resulting order is passed in explicitly as
`shuffled` so the function stays pure. -/
def start_game (t : PokerTable) (shuffled : List Card) : Bool × PokerTable :=
  if t.players.length < 2 then (false, t)
  else
    let resetPlayers := t.players.map (fun p =>
      { p with cards := [], current_bet := 0, total_bet := 0,
               folded := false, all_in := false, acted := false })
    let t1 : PokerTable :=
      { t with game_active := true, deck := shuffled, community_cards := [],
               pot := 0, current_bet := 0, players := resetPlayers }
    let r1 := dealRound t1.players t1.deck
    let r2 := dealRound r1.1 r1.2
    let t2 := post_blinds { t1 with players := r2.1, deck := r2.2 }
    (true, { t2 with state := GameState.preflop,
                     current_player := (t2.dealer_position + 3) % t2.players.length })

/-- The per-player test `not folded and not all_in and chips > 0` used by
`advance_to_next_player`, `advance_game_state`'s seat search and (as a filter)
`is_betting_round_complete`. -/
def canAct (p : Player) : Bool :=
  !p.folded && !p.all_in && decide (0 < p.chips)

/-- `PokerTable.is_betting_round_complete` (poker.py lines 398-423). -/
def is_betting_round_complete (t : PokerTable) : Bool :=
  let active := t.players.filter (fun p => !p.folded)
  if active.length ≤ 1 then true
  else
    let players_who_can_act := active.filter (fun p => !p.all_in && decide (0 < p.chips))
    if players_who_can_act.length == 0 then true
    else if players_who_can_act.length == 1 && (players_who_can_act.headD dummyPlayer).acted
    then true
    else
      let max_bet := ((active.map (fun p => p.current_bet)).max?).getD 0
      players_who_can_act.all (fun p => p.acted && decide (max_bet ≤ p.current_bet))

/-- Python list lexicographic comparison (`tiebreakers` lists): `a <= b`. -/
def natListLexLe : List Nat → List Nat → Bool
  | [], _ => true
  | _ :: _, [] => false
  | a :: as, b :: bs => if a < b then true else if b < a then false else natListLexLe as bs

/-- Tuple comparison used by `player_hands.sort(key=lambda x: (x[1], x[2]),
reverse=True)`: `a <= b` on `(hand_rank, tiebreakers)`. -/
def handKeyLe (a b : Nat × List Nat) : Bool :=
  if a.1 < b.1 then true else if b.1 < a.1 then false else natListLexLe a.2 b.2

/-- The `(player, hand_rank, tiebreakers)` list built at showdown (the
`all_cards` component is display-only and omitted). -/
def showdownHands (t : PokerTable) : List (Player × (Nat × List Nat)) :=
  (t.players.filter (fun p => !p.folded)).map
    (fun p => (p, evaluate_hand (p.cards ++ t.community_cards)))

/-- `player_hands.sort(... reverse=True)` then `best_hand = player_hands[0]`:
the best `(hand_rank, tiebreakers)` key among the non-folded players. -/
def bestKey (t : PokerTable) : Nat × List Nat :=
  (((showdownHands t).insertionSort (fun a b => handKeyLe b.2 a.2 = true)).headD
    (dummyPlayer, (0, []))).2

/-- Membership of a player object in the `winners` list
(`[ph for ph in player_hands if ph[1] == best and ph[2] == best]`). -/
def isWinner (t : PokerTable) (p : Player) : Bool :=
  !p.folded && (evaluate_hand (p.cards ++ t.community_cards) == bestKey t)

/-- `PokerTable.determine_winner` (poker.py lines 496-536).  The
`user_tokens`/`save_user_tokens` persistence calls and the stored
`showdown_hands` display list are omitted; the chip movements are embedded
exactly: with one non-folded player the whole pot goes to them, otherwise
every winner object gets `self.pot // len(winners)` added and the pot is
zeroed (the division remainder is not paid to anyone). -/
def determine_winner (t : PokerTable) : PokerTable :=
  let active := t.players.filter (fun p => !p.folded)
  let ps :=
    if active.length == 1 then
      t.players.map (fun p => if !p.folded then { p with chips := p.chips + t.pot } else p)
    else
      let winners := (showdownHands t).filter (fun ph => ph.2 == bestKey t)
      -- winnings_per_player = self.pot // len(winners)   (Python floor division)
      let winnings_per_player := Int.fdiv t.pot winners.length
      t.players.map (fun p =>
        if isWinner t p then { p with chips := p.chips + winnings_per_player } else p)
  { t with players := ps, pot := 0, state := GameState.ended, game_active := false,
           dealer_position := (t.dealer_position + 1) % ps.length }

/-- The seat search at the end of `advance_game_state` (poker.py lines
477-484): starting at index `i`, check up to `fuel` seats for one passing
`canAct`, advancing `% len` between checks. -/
def findFirstActor : Nat → Nat → List Player → Option Nat
  | 0, _, _ => none
  | n + 1, i, ps =>
      if canAct (ps.getD i dummyPlayer) then some i
      else findFirstActor n ((i + 1) % ps.length) ps

/-- `PokerTable.advance_game_state` (poker.py lines 425-489).  The source
recurses into itself (at most once per remaining street, ≤ 4 times in a hand)
when everyone is all-in; the recursion is driven here by an explicit `fuel`
counter, always called with fuel 8 which strictly dominates the 4-street
recursion depth of any hand. -/
def advance_game_state : Nat → PokerTable → PokerTable
  | 0, t => t
  | fuel + 1, t =>
    let active := t.players.filter (fun p => !p.folded)
    if active.length ≤ 1 then
      determine_winner { t with state := GameState.showdown }
    else
      -- reset current bets and acted status
      let resetPlayers := t.players.map (fun p => { p with current_bet := 0, acted := false })
      let t := { t with players := resetPlayers, current_bet := 0 }
      let players_with_chips :=
        (t.players.filter (fun p => !p.folded)).filter (fun p => decide (0 < p.chips))
      let all_in_situation := players_with_chips.length ≤ 1
      match t.state with
      | GameState.river => determine_winner { t with state := GameState.showdown }
      | st =>
        let t2 : PokerTable :=
          match st with
          | GameState.preflop =>
            let (_, d0) := dealCard t.deck        -- burn card
            let (c1, d1) := dealCard d0
            let (c2, d2) := dealCard d1
            let (c3, d3) := dealCard d2
            { t with deck := d3, community_cards := t.community_cards ++ [c1, c2, c3],
                     state := GameState.flop }
          | GameState.flop =>
            let (_, d0) := dealCard t.deck        -- burn card
            let (c1, d1) := dealCard d0
            { t with deck := d1, community_cards := t.community_cards ++ [c1],
                     state := GameState.turn }
          | GameState.turn =>
            let (_, d0) := dealCard t.deck        -- burn card
            let (c1, d1) := dealCard d0
            { t with deck := d1, community_cards := t.community_cards ++ [c1],
                     state := GameState.river }
          | _ => t
        if all_in_situation then advance_game_state fuel t2
        else
          let start := (t2.dealer_position + 1) % t2.players.length
          match findFirstActor t2.players.length start t2.players with
          | some i => { t2 with current_player := i }
          | none => determine_winner { t2 with current_player := start,
                                               state := GameState.showdown }

/-- The `while attempts < max_attempts` loop of `advance_to_next_player`
(poker.py lines 380-396): advance one seat, test `canAct`, bail out into
`advance_game_state` when the search wraps to `start_pos` without success. -/
def advanceSearch (fuel : Nat) (start_pos : Nat) : Nat → PokerTable → PokerTable
  | 0, t => t
  | n + 1, t =>
    let i := (t.current_player + 1) % t.players.length
    let t' := { t with current_player := i }
    if canAct (t'.players.getD i dummyPlayer) then t'
    else if i == start_pos then advance_game_state fuel t'
    else advanceSearch fuel start_pos n t'

/-- `PokerTable.advance_to_next_player` (poker.py lines 366-396). -/
def advance_to_next_player (fuel : Nat) (t : PokerTable) : PokerTable :=
  let active := t.players.filter (fun p => !p.folded)
  if active.length ≤ 1 then advance_game_state fuel t
  else if ((active.filter (fun p => !p.all_in && decide (0 < p.chips))).length == 0) then
    advance_game_state fuel t
  else advanceSearch fuel t.current_player t.players.length t

/-- `PokerTable.player_action` (poker.py lines 291-364).  Returns the Python
`(bool, message)` pair plus the table after the action (the source mutates
`self`).  Street-advancing calls use fuel 8 (see `advance_game_state`). -/
def player_action (t : PokerTable) (user_id : Nat) (action : String) (amount : Int) :
    Bool × String × PokerTable :=
  if !t.game_active || t.state == GameState.ended then (false, "No active game", t)
  else
    let cp := t.players.getD t.current_player dummyPlayer
    if cp.user_id ≠ user_id then (false, "Not your turn", t)
    else if cp.folded || cp.all_in then (false, "You cannot act (folded/all-in)", t)
    else
      let applied : Bool × String × PokerTable :=
        if action = "fold" then
          let ps := modifyPlayer t.players t.current_player
            (fun p => { p with folded := true, acted := true })
          (true, "", { t with players := ps })
        else if action = "call" then
          let call_amount := min (t.current_bet - cp.current_bet) cp.chips
          let p1 := { cp with chips := cp.chips - call_amount,
                              current_bet := cp.current_bet + call_amount,
                              total_bet := cp.total_bet + call_amount,
                              acted := true }
          let p2 := if p1.chips = 0 then { p1 with all_in := true } else p1
          let ps := modifyPlayer t.players t.current_player (fun _ => p2)
          (true, "", { t with players := ps, pot := t.pot + call_amount })
        else if action = "raise" then
          let min_raise := t.current_bet * 2 - cp.current_bet
          let max_raise := cp.chips + cp.current_bet
          if amount < min_raise then
            (false, "Minimum raise is " ++ toString min_raise ++ " total", t)
          else
            let amount1 := if max_raise < amount then max_raise else amount
            let additional0 := amount1 - cp.current_bet
            let additional := if cp.chips < additional0 then cp.chips else additional0
            let p1 := { cp with chips := cp.chips - additional,
                                current_bet := cp.current_bet + additional,
                                total_bet := cp.total_bet + additional,
                                acted := true }
            -- self.current_bet = current_player.current_bet  happens BEFORE the test
            let new_table_bet := p1.current_bet
            let ps1 := modifyPlayer t.players t.current_player (fun _ => p1)
            -- if current_player.current_bet > self.current_bet: reset others' acted.
            -- The comparison is made against the just-assigned value, so it is
            -- `new_table_bet > new_table_bet` and the reset branch never runs.
            let ps2 :=
              if new_table_bet > new_table_bet then
                ps1.map (fun q =>
                  if q.user_id ≠ user_id && !q.folded && !q.all_in
                  then { q with acted := false } else q)
              else ps1
            let ps3 :=
              if p1.chips = 0 then
                modifyPlayer ps2 t.current_player (fun q => { q with all_in := true })
              else ps2
            (true, "", { t with players := ps3, pot := t.pot + additional,
                                current_bet := new_table_bet })
        else if action = "check" then
          if cp.current_bet < t.current_bet then (false, "Cannot check, must call or fold", t)
          else
            let ps := modifyPlayer t.players t.current_player
              (fun p => { p with acted := true })
            (true, "", { t with players := ps })
        else (false, "Invalid action", t)
      match applied with
      | (false, msg, t') => (false, msg, t')
      | (true, _, t') =>
        if is_betting_round_complete t' then
          (true, "Action successful: " ++ action, advance_game_state 8 t')
        else
          (true, "Action successful: " ++ action, advance_to_next_player 8 t')

/-- Number of non-folded players (`active_players`). -/
def activeCount (t : PokerTable) : Nat :=
  (t.players.filter (fun p => !p.folded)).length

/-- Number of winner objects credited at showdown (`len(winners)`). -/
def winnersCount (t : PokerTable) : Nat :=
  t.players.countP (fun p => isWinner t p)

/-- Total chips held in player stacks. -/
def chipsTotal (ps : List Player) : Int :=
  (ps.map (fun p => p.chips)).sum

/-! ## Chip ledger (token_manager.py, class `TokenManager`) -/

def CASINO_POOL_ID : String := "casino_pool"

def MAX_LOAN : Int := 5000

/-- One entry of `self.data`: `{'chips': ..., 'loan': ...}`.  The source's
normalisation of legacy entries (bare int, missing keys) always yields this
shape, so the state carries it directly. -/
structure Account where
  chips : Int
  loan : Int
  deriving DecidableEq, Repr

/-- `_get_user_data`'s default for an unseen non-pool account. -/
def defaultAccount : Account := { chips := 1000, loan := 0 }

/-- The in-memory `self.data` dict (None = key absent).  File persistence
(`_save_data`) only mirrors this dict and is omitted. -/
abbrev Ledger := String → Option Account

/-- Account as observed through `get_chips`/`get_loan` (lazy default). -/
def getAccount (s : Ledger) (id : String) : Account :=
  (s id).getD defaultAccount

def chipsOf (s : Ledger) (id : String) : Int := (getAccount s id).chips

def loanOf (s : Ledger) (id : String) : Int := (getAccount s id).loan

/-- Writing one dict entry. -/
def setAccount (s : Ledger) (id : String) (a : Account) : Ledger :=
  fun k => if k = id then some a else s k

/-- `TokenManager._get_user_data(id)`: returns the (lazily created) entry and
the possibly enlarged dict. -/
def Ledger.getUser (s : Ledger) (id : String) : Account × Ledger :=
  match s id with
  | some a => (a, s)
  | none => (defaultAccount, setAccount s id defaultAccount)

/-- `TokenManager.remove_chips(user_id, amount, destination_id)`
(token_manager.py lines 93-106): the ledger transfer.  The two `-=`/`+=`
mutations are performed sequentially on the current state, which reproduces
Python's aliasing when `user_id == destination_id`. -/
def remove_chips (s : Ledger) (user_id : String) (amount : Int) (destination_id : String) :
    Bool × Ledger :=
  let g := s.getUser user_id
  if g.1.chips < amount then (false, g.2)
  else
    let s2 := (g.2.getUser destination_id).2
    let u2 := getAccount s2 user_id
    let s3 := setAccount s2 user_id { u2 with chips := u2.chips - amount }
    let d2 := getAccount s3 destination_id
    let s4 := setAccount s3 destination_id { d2 with chips := d2.chips + amount }
    (true, s4)

/-- The comparison `user_data['chips'] >= loan * 1.1` of
`_check_loan_repayment` (token_manager.py line 145), modelled exactly:

* the literal `1.1` is the IEEE-754 double nearest to 1.1, namely
  `4953959590107546 / 2^52`;
* `loan * 1.1` converts `loan` to double (exact for `0 < loan < 2^53` — every
  loan the manager can create is ≤ MAX_LOAN = 5000) and multiplies with one
  round-to-nearest-even: the product `loan * 4953959590107546 / 2^52` is
  rounded to 53 significant bits;
* Python compares an `int` against a `float` exactly, so the test becomes the
  integer inequality `chips * 2^52 ≥ n * 2^s` where `n * 2^(s-52)` is the
  rounded product.

This is NOT the exact `chips ≥ 11 * loan / 10`: e.g. for `loan = 3000` the
double product is `3300.0000000000005`, so `chips = 3300` fails the test.
`log2floor` computes `⌊log₂ n⌋` by structural recursion on a fuel bound (so
that it reduces inside the kernel); 128 halvings cover every number below
`2^128`. -/
def log2floor : Nat → Nat → Nat
  | 0, _ => 0
  | f + 1, n => if 2 ≤ n then log2floor f (n / 2) + 1 else 0

def autoRepayTrigger (chips loan : Int) : Bool :=
  let M : Nat := 4953959590107546
  let num := loan.toNat * M
  let s := log2floor 128 num - 52
  let q := num / 2 ^ s
  let r := num % 2 ^ s
  let n := if 2 ^ s < 2 * r then q + 1
           else if 2 * r = 2 ^ s ∧ q % 2 = 1 then q + 1 else q
  decide ((n : Int) * (2 : Int) ^ s ≤ chips * (2 : Int) ^ 52)

/-- `TokenManager.repay_loan` (token_manager.py lines 151-174).  The returned
message strings are compressed to stable tags (they carry no logic). -/
def repay_loan (s : Ledger) (user_id : String) (amount : Int) :
    (Bool × String) × Ledger :=
  let g := s.getUser user_id
  if g.1.loan ≤ 0 then ((false, "no outstanding loan"), g.2)
  else if g.1.chips < amount then ((false, "not enough chips to repay"), g.2)
  else
    let repayment_amount := min amount g.1.loan
    let s2 := (remove_chips g.2 user_id repayment_amount CASINO_POOL_ID).2
    let u2 := getAccount s2 user_id
    let s3 := setAccount s2 user_id { u2 with loan := u2.loan - repayment_amount }
    ((true, "repaid"), s3)

/-- `TokenManager._check_loan_repayment` (token_manager.py lines 138-149). -/
def check_loan_repayment (s : Ledger) (user_id : String) : Option String × Ledger :=
  let g := s.getUser user_id
  if g.1.loan ≤ 0 then (none, g.2)
  else if autoRepayTrigger g.1.chips g.1.loan then
    let s2 := (repay_loan g.2 user_id g.1.loan).2
    (some "loan automatically repaid", s2)
  else (none, g.2)

/-- `TokenManager.add_chips` (token_manager.py lines 74-91): optionally debit
the source (early-returning the error string on insufficiency), then credit
the user and run `_check_loan_repayment`.  The credit-and-check tail is
written in both match arms (instead of behind the `if source_id:` guard) —
the control flow is identical. -/
def add_chips (s : Ledger) (user_id : String) (amount : Int) (source_id : Option String) :
    Option String × Ledger :=
  match source_id with
  | none =>
    let g2 := s.getUser user_id
    let s3 := setAccount g2.2 user_id { g2.1 with chips := g2.1.chips + amount }
    check_loan_repayment s3 user_id
  | some src =>
    let g := s.getUser src
    if g.1.chips < amount then (some "Source has insufficient chips.", g.2)
    else
      let s1 := setAccount g.2 src { g.1 with chips := g.1.chips - amount }
      let g2 := s1.getUser user_id
      let s3 := setAccount g2.2 user_id { g2.1 with chips := g2.1.chips + amount }
      check_loan_repayment s3 user_id

/-- `TokenManager.grant_loan` (token_manager.py lines 111-136). -/
def grant_loan (s : Ledger) (user_id : String) (amount : Int) :
    (Bool × String) × Ledger :=
  if amount ≤ 0 then ((false, "must request a positive amount"), s)
  else
    let g := s.getUser user_id
    let current_loan := g.1.loan
    let gp := g.2.getUser CASINO_POOL_ID   -- self.get_pool_balance()
    let pool_balance := gp.1.chips
    if pool_balance < amount then ((false, "pool cannot cover this loan"), gp.2)
    else if MAX_LOAN ≤ current_loan then ((false, "loan limit reached"), gp.2)
    else if MAX_LOAN < current_loan + amount then ((false, "loan would exceed limit"), gp.2)
    else
      let s3 := (add_chips gp.2 user_id amount (some CASINO_POOL_ID)).2
      let u3 := getAccount s3 user_id
      let s4 := setAccount s3 user_id { u3 with loan := u3.loan + amount }
      ((true, "granted"), s4)

/-- `TokenManager.__init__` on a fresh data file: only the casino pool exists,
seeded by `_ensure_casino_pool` with `INITIAL_POOL_BALANCE`. -/
def initialLedger : Ledger :=
  fun k => if k = CASINO_POOL_ID then some { chips := 1000000, loan := 0 } else none

/-! ## Concrete scenario states -/

/-- A freshly seated player. -/
def mkPlayer (id : Nat) (c : Int) : Player := { user_id := id, username := "p", chips := c }

/-- The full 52-card deck contents (`Deck.reset` before shuffling; any order is
a legal shuffle result). -/
def standardDeck : List Card :=
  (List.range 13).flatMap (fun r =>
    [⟨r + 2, Suit.hearts⟩, ⟨r + 2, Suit.diamonds⟩, ⟨r + 2, Suit.clubs⟩, ⟨r + 2, Suit.spades⟩])

/-- Showdown between two players whose best hands tie (the board is a royal
flush that plays for both), with a pot of 25 that does not split evenly
between the 2 winners. -/
def tieTable : PokerTable :=
  { players :=
      [{ mkPlayer 1 100 with cards := [⟨2, Suit.clubs⟩, ⟨3, Suit.clubs⟩], total_bet := 13 },
       { mkPlayer 2 200 with cards := [⟨2, Suit.diamonds⟩, ⟨3, Suit.diamonds⟩], total_bet := 12 }],
    deck := [],
    community_cards := [⟨14, Suit.spades⟩, ⟨13, Suit.spades⟩, ⟨12, Suit.spades⟩,
                        ⟨11, Suit.spades⟩, ⟨10, Suit.spades⟩],
    pot := 25, current_bet := 0, small_blind := 10, big_blind := 20,
    dealer_position := 0, current_player := 0, state := GameState.showdown,
    game_active := true }

/-- Players of the spec's side-pot scenario: all-ins of 50, 150 and 300 plus a
caller of 300 (pot 800).  The 50-chip all-in holds the best hand (a royal
flush); the others hold a pair of aces, a pair of kings, and queen high. -/
def sidePotPlayerA : Player :=
  { mkPlayer 1 0 with cards := [⟨14, Suit.hearts⟩, ⟨13, Suit.hearts⟩], total_bet := 50, all_in := true }

def sidePotPlayerB : Player :=
  { mkPlayer 2 0 with cards := [⟨14, Suit.spades⟩, ⟨14, Suit.diamonds⟩], total_bet := 150, all_in := true }

def sidePotPlayerC : Player :=
  { mkPlayer 3 0 with cards := [⟨13, Suit.spades⟩, ⟨13, Suit.diamonds⟩], total_bet := 300, all_in := true }

def sidePotPlayerD : Player :=
  { mkPlayer 4 700 with cards := [⟨4, Suit.spades⟩, ⟨8, Suit.diamonds⟩], total_bet := 300 }

def sidePotTable : PokerTable :=
  { players := [sidePotPlayerA, sidePotPlayerB, sidePotPlayerC, sidePotPlayerD],
    deck := [],
    community_cards := [⟨12, Suit.hearts⟩, ⟨11, Suit.hearts⟩, ⟨10, Suit.hearts⟩,
                        ⟨3, Suit.clubs⟩, ⟨2, Suit.diamonds⟩],
    pot := 800, current_bet := 0, small_blind := 10, big_blind := 20,
    dealer_position := 0, current_player := 0, state := GameState.showdown,
    game_active := true }

/-- The spec's betting-round-closure scenario on the flop: players A, B, C can
act, D has folded; nobody has bet yet and A is first to act (dealer at seat 3). -/
def fourPlayerTable : PokerTable :=
  { players := [mkPlayer 1 1000, mkPlayer 2 1000, mkPlayer 3 1000,
                { mkPlayer 4 1000 with folded := true }],
    deck := [], community_cards := [⟨7, Suit.hearts⟩, ⟨9, Suit.clubs⟩, ⟨12, Suit.spades⟩],
    pot := 0, current_bet := 0, small_blind := 10, big_blind := 20,
    dealer_position := 3, current_player := 0, state := GameState.flop,
    game_active := true }

/-- A heads-up table immediately before blinds: seat 0 is the dealer (and thus
the small blind), seat 1 posts the big blind. -/
def headsUpTable (c0 c1 sb bb : Int) : PokerTable :=
  { players := [mkPlayer 1 c0, mkPlayer 2 c1],
    deck := [], community_cards := [],
    pot := 0, current_bet := 0, small_blind := sb, big_blind := bb,
    dealer_position := 0, current_player := 0, state := GameState.preflop,
    game_active := true }

/-- A waiting table whose first seat holds a player with 0 chips. -/
def zeroChipTable : PokerTable :=
  { players := [mkPlayer 1 0, mkPlayer 2 1000],
    deck := [], community_cards := [],
    pot := 0, current_bet := 0, small_blind := 10, big_blind := 20,
    dealer_position := 0, current_player := 0, state := GameState.waiting,
    game_active := false }

/-- A ledger holding a borrower with a 3000-chip outstanding loan and an empty
balance, besides the seeded pool. -/
def borrowerLedger : Ledger :=
  fun k => if k = CASINO_POOL_ID then some { chips := 1000000, loan := 0 }
           else if k = "bob" then some { chips := 0, loan := 3000 } else none

/-- The ledger after granting a fresh account a 1000-chip loan from the
initial state (used to exercise the auto-repayment path). -/
def grantedLedger : Ledger := (grant_loan initialLedger "bob" 1000).2

/-! ## Helper lemmas -/

theorem modifyPlayer_length (ps : List Player) (i : Nat) (f : Player → Player) :
    (modifyPlayer ps i f).length = ps.length := by
  induction ps generalizing i with
  | nil => rfl
  | cons p ps ih => cases i with
    | zero => rfl
    | succ n => simpa [modifyPlayer] using ih n

theorem dealRound_length (ps : List Player) (deck : List Card) :
    ((dealRound ps deck).1).length = ps.length := by
  induction ps generalizing deck with
  | nil => rfl
  | cons p ps ih =>
    by_cases hf : p.folded <;> simp [dealRound, hf, ih]

theorem post_blinds_players_length (t : PokerTable) :
    (post_blinds t).players.length = t.players.length := by
  simp [post_blinds, modifyPlayer_length]

theorem chipsTotal_cons (p : Player) (ps : List Player) :
    chipsTotal (p :: ps) = p.chips + chipsTotal ps := by
  simp [chipsTotal]

theorem chipsTotal_map_reward (ps : List Player) (pred : Player → Bool) (w : Int) :
    chipsTotal (ps.map (fun p => if pred p then { p with chips := p.chips + w } else p))
      = chipsTotal ps + (ps.countP pred : Int) * w := by
  induction ps with
  | nil => simp [chipsTotal]
  | cons p ps ih =>
    cases h : pred p <;>
      simp only [List.map_cons, h, chipsTotal_cons, List.countP_cons, ih, if_true,
        Bool.false_eq_true, Bool.true_eq_false, if_false, reduceIte] <;>
      push_cast <;> ring

/-! ## Claim theorems -/

/-- C10: for every input of fewer than 5 cards, `evaluate_hand` returns the
degenerate high-card result `(0, [])`. -/
theorem evaluateHandShortInput (cards : List Card) (h : cards.length < 5) :
    evaluate_hand cards = (0, []) := by
  unfold evaluate_hand
  rw [if_pos h]

/-- Witness for C10 at the empty list. -/
theorem evaluateHandShortInput_witness :
    ([] : List Card).length < 5 ∧ evaluate_hand [] = (0, []) :=
  ⟨by decide, evaluateHandShortInput [] (by decide)⟩

set_option maxHeartbeats 2000000 in
/-- C5: every mixed-suit (no-flush) assignment of suits to the ranks
A, 2, 3, 4, 5 evaluates as a straight (category 4) with high card 5, not 14. -/
theorem wheelStraightEvaluatesLowAce : ∀ (s1 s2 s3 s4 s5 : Suit),
    ¬(s1 = s2 ∧ s1 = s3 ∧ s1 = s4 ∧ s1 = s5) →
    evaluate_hand [⟨14, s1⟩, ⟨2, s2⟩, ⟨3, s3⟩, ⟨4, s4⟩, ⟨5, s5⟩] = (4, [5]) := by
  decide

/-- Witness for C5: a concrete mixed-suit wheel. -/
theorem wheelStraightEvaluatesLowAce_witness :
    ¬(Suit.hearts = Suit.spades ∧ Suit.hearts = Suit.spades ∧
      Suit.hearts = Suit.spades ∧ Suit.hearts = Suit.spades) ∧
    evaluate_hand [⟨14, Suit.hearts⟩, ⟨2, Suit.spades⟩, ⟨3, Suit.spades⟩,
                   ⟨4, Suit.spades⟩, ⟨5, Suit.spades⟩] = (4, [5]) :=
  ⟨by decide, wheelStraightEvaluatesLowAce Suit.hearts Suit.spades Suit.spades
    Suit.spades Suit.spades (by decide)⟩

/-- C4 (code bug): `sfCounterCards` holds a hearts flush {2,3,4,5,K} and a
mixed-suit straight 2-6, no five of its cards forming a genuine straight
flush, yet `evaluate_hand` classifies it as a straight flush (category 8). -/
theorem flushPlusStraightMisclassified :
    evaluate_hand sfCounterCards = (8, [6]) ∧
    ∀ sub ∈ List.sublistsLen 5 sfCounterCards, specStraightFlush5 sub = false := by
  decide

/-- C3 (code bug): after A bets 100, B calls and C raises to 300 (a full,
minimum-meeting raise), the `acted` flags of A and B remain `true` — the reset
in `player_action` compares the table bet with itself and never fires.  The
folded player D also keeps `folded = true`. -/
theorem raiseDoesNotResetActedFlags :
    (player_action
       (player_action (player_action fourPlayerTable 1 "raise" 100).2.2 2 "call" 0).2.2
       3 "raise" 300).1 = true ∧
    (((player_action
       (player_action (player_action fourPlayerTable 1 "raise" 100).2.2 2 "call" 0).2.2
       3 "raise" 300).2.2).players.getD 0 dummyPlayer).acted = true ∧
    (((player_action
       (player_action (player_action fourPlayerTable 1 "raise" 100).2.2 2 "call" 0).2.2
       3 "raise" 300).2.2).players.getD 1 dummyPlayer).acted = true ∧
    (((player_action
       (player_action (player_action fourPlayerTable 1 "raise" 100).2.2 2 "call" 0).2.2
       3 "raise" 300).2.2).players.getD 3 dummyPlayer).folded = true := by
  decide

/-- C8 (counterexample to "marked all-in"): heads-up, stacks 1000 and 15, big
blind 20 — the short stack posts its whole 15-chip stack as the big blind and
ends with 0 chips, but `post_blinds` leaves `all_in = false`. -/
theorem blindAllInFlagNotSet :
    ((post_blinds (headsUpTable 1000 15 10 20)).players.getD 1 dummyPlayer).chips = 0 ∧
    ((post_blinds (headsUpTable 1000 15 10 20)).players.getD 1 dummyPlayer).all_in = false := by
  decide

/-- C8 (amended): heads-up blind posting charges each poster
`min(blind, stack)` without error and without touching the `all_in` flags;
when the big blind consumes the whole stack the player nonetheless fails the
`canAct` test (chips = 0) used by every turn-selection and round-completion
loop, so the hand proceeds without requiring their action. -/
theorem postBlindsCappedNoError (c0 c1 sb bb : Int) :
    ((post_blinds (headsUpTable c0 c1 sb bb)).players.getD 0 dummyPlayer).current_bet = min sb c0 ∧
    ((post_blinds (headsUpTable c0 c1 sb bb)).players.getD 0 dummyPlayer).chips = c0 - min sb c0 ∧
    ((post_blinds (headsUpTable c0 c1 sb bb)).players.getD 1 dummyPlayer).current_bet = min bb c1 ∧
    ((post_blinds (headsUpTable c0 c1 sb bb)).players.getD 1 dummyPlayer).chips = c1 - min bb c1 ∧
    (post_blinds (headsUpTable c0 c1 sb bb)).pot = min sb c0 + min bb c1 ∧
    (post_blinds (headsUpTable c0 c1 sb bb)).current_bet = min bb c1 ∧
    ((post_blinds (headsUpTable c0 c1 sb bb)).players.getD 0 dummyPlayer).all_in = false ∧
    ((post_blinds (headsUpTable c0 c1 sb bb)).players.getD 1 dummyPlayer).all_in = false ∧
    (c1 ≤ bb →
      canAct ((post_blinds (headsUpTable c0 c1 sb bb)).players.getD 1 dummyPlayer) = false) := by
  refine ⟨?_, ?_, ?_, ?_, ?_, ?_, ?_, ?_, ?_⟩ <;>
    simp [post_blinds, headsUpTable, mkPlayer, modifyPlayer, canAct]

/-- Witness for C8's amended theorem at stacks 1000/15, blinds 10/20. -/
theorem postBlindsCappedNoError_witness :
    (15 : Int) ≤ 20 ∧
    canAct ((post_blinds (headsUpTable 1000 15 10 20)).players.getD 1 dummyPlayer) = false :=
  ⟨by decide, (postBlindsCappedNoError 1000 15 10 20).2.2.2.2.2.2.2.2 (by decide)⟩

/-- C9 (counterexample to "players with 0 chips are dropped before the
check"): a table whose first seat holds 0 chips starts successfully and the
0-chip player is still dealt in. -/
theorem startGameAllowsZeroChipPlayer :
    (start_game zeroChipTable standardDeck).1 = true ∧
    ((start_game zeroChipTable standardDeck).2.players.map (fun p => p.user_id)) = [1, 2] ∧
    ((start_game zeroChipTable standardDeck).2.players.getD 0 dummyPlayer).chips = 0 := by
  decide

/-- C9 (amended): `start_game` fails (returning the table unchanged) exactly
when fewer than 2 players are seated, regardless of their chip counts; with
≥ 2 seated players it always succeeds, and nobody is dropped (the seat list
keeps its length). -/
theorem startGameRequiresTwoPlayers (t : PokerTable) (deck : List Card) :
    (t.players.length < 2 → start_game t deck = (false, t)) ∧
    (2 ≤ t.players.length →
      (start_game t deck).1 = true ∧
      (start_game t deck).2.players.length = t.players.length) := by
  constructor
  · intro h
    simp [start_game, h]
  · intro h
    have hlt : ¬ t.players.length < 2 := by omega
    refine ⟨by simp [start_game, hlt], ?_⟩
    simp [start_game, hlt, post_blinds_players_length, dealRound_length]

/-- Witness for C9's amended theorem at the 0-chip two-player table. -/
theorem startGameRequiresTwoPlayers_witness :
    2 ≤ zeroChipTable.players.length ∧
    (start_game zeroChipTable standardDeck).1 = true :=
  ⟨by decide, ((startGameRequiresTwoPlayers zeroChipTable standardDeck).2 (by decide)).1⟩

/-- C1 (counterexample to exact conservation): two tied winners split a pot of
25; each receives ⌊25/2⌋ = 12, the table pays out only 24 and the odd chip
vanishes (there is no rake account). -/
theorem splitPotRemainderDropped :
    tieTable.pot = 25 ∧
    chipsTotal (determine_winner tieTable).players = chipsTotal tieTable.players + 24 ∧
    (determine_winner tieTable).pot = 0 := by
  decide

/-- C2 (code bug): in the spec's 50/150/300/300 side-pot scenario the 50-chip
all-in holds the best hand; the 50-level side pot caps their winnings at
4 × 50 = 200, but `determine_winner` ignores side pots and hands them the
whole 800-chip pot. -/
theorem sidePotIsolationViolated :
    (sidePotTable.players.getD 0 dummyPlayer).total_bet = 50 ∧
    ((determine_winner sidePotTable).players.getD 0 dummyPlayer).chips
      - (sidePotTable.players.getD 0 dummyPlayer).chips = 800 ∧
    ¬ (800 : Int) ≤ 50 * 4 := by
  decide

/-- C7 (counterexample to the "at or above 110%" trigger): a borrower owing
3000 is credited to a balance of exactly 3300 = 110% of the loan, yet the loan
is not repaid — the code's trigger `chips >= loan * 1.1` uses the IEEE double
product `3300.0000000000005`. -/
theorem loanAutoRepayFloatBoundary :
    chipsOf (add_chips borrowerLedger "bob" 3300 none).2 "bob" = 3300 ∧
    loanOf (add_chips borrowerLedger "bob" 3300 none).2 "bob" = 3000 ∧
    11 * (3000 : Int) ≤ 10 * 3300 := by
  decide

/-- Unfolding lemma: the player list produced by `determine_winner`. -/
theorem determine_winner_players (t : PokerTable) :
    (determine_winner t).players
      = if (t.players.filter (fun p => !p.folded)).length == 1 then
          t.players.map (fun p => if !p.folded then { p with chips := p.chips + t.pot } else p)
        else
          t.players.map (fun p =>
            if isWinner t p then
              { p with chips := p.chips + Int.fdiv t.pot (((showdownHands t).filter (fun ph => ph.2 == bestKey t)).length) }
            else p) := rfl

/-- `len(winners)` equals the number of player objects passing `isWinner`. -/
theorem winners_length_eq (t : PokerTable) :
    ((showdownHands t).filter (fun ph => ph.2 == bestKey t)).length = winnersCount t := by
  simp only [showdownHands, winnersCount]
  rw [← List.countP_eq_length_filter, List.countP_map, List.countP_filter]
  apply List.countP_congr
  intro x _
  simp [isWinner, Function.comp, Bool.and_comm]

/-- At a contested showdown (≥ 2 non-folded players) the winners list is
nonempty: the head of the sorted hand list realises `bestKey`. -/
theorem winnersCount_pos (t : PokerTable) (h2 : 2 ≤ activeCount t) :
    0 < winnersCount t := by
  have hlen : (showdownHands t).length = activeCount t := by
    simp [showdownHands, activeCount]
  have hne : showdownHands t ≠ [] := by
    intro h
    rw [h] at hlen
    simp at hlen
    omega
  have hLne : (showdownHands t).insertionSort (fun a b => handKeyLe b.2 a.2 = true) ≠ [] := by
    intro h
    have hl := List.length_insertionSort (r := fun a b => handKeyLe b.2 a.2 = true)
      (showdownHands t)
    rw [h] at hl
    exact hne (List.eq_nil_of_length_eq_zero hl.symm)
  obtain ⟨hd, tl, hcons⟩ := List.exists_cons_of_ne_nil hLne
  have hdmem : hd ∈ showdownHands t := by
    have hmem : hd ∈ (showdownHands t).insertionSort (fun a b => handKeyLe b.2 a.2 = true) := by
      rw [hcons]; exact List.mem_cons_self _ _
    exact (List.perm_insertionSort _ _).mem_iff.mp hmem
  have hbest : bestKey t = hd.2 := by
    unfold bestKey
    rw [hcons]
    simp
  have hdmem' : ∃ a, (a ∈ t.players ∧ a.folded = false) ∧
      (a, evaluate_hand (a.cards ++ t.community_cards)) = hd := by
    simpa [showdownHands] using hdmem
  obtain ⟨p, ⟨hpmem, hpfold⟩, hpeq⟩ := hdmem'
  unfold winnersCount
  apply List.countP_pos_iff.mpr
  refine ⟨p, hpmem, ?_⟩
  have h2' : evaluate_hand (p.cards ++ t.community_cards) = hd.2 := by
    rw [← hpeq]
  simp [isWinner, hpfold, hbest, h2']

/-- C1 (amended): what `determine_winner` actually conserves.  On a fold-out
win (one non-folded player) the sole survivor receives the whole pot.  At a
contested showdown the `winnersCount t` tied winners receive
`⌊pot / winnersCount⌋` each, so exactly
`winnersCount * (pot fdiv winnersCount) = pot - pot % winnersCount` chips are
paid out: the remainder is not assigned to anyone (there is no rake), and the
pot is zeroed. -/
theorem potDistributionTotals (t : PokerTable) :
    (activeCount t = 1 →
        chipsTotal (determine_winner t).players = chipsTotal t.players + t.pot) ∧
    (2 ≤ activeCount t →
        0 < winnersCount t ∧
        chipsTotal (determine_winner t).players
          = chipsTotal t.players + (winnersCount t : Int) * Int.fdiv t.pot (winnersCount t)) ∧
    (determine_winner t).pot = 0 := by
  refine ⟨?_, ?_, rfl⟩
  · intro h1
    have hc : ((t.players.filter (fun p => !p.folded)).length == 1) = true := by
      rw [beq_iff_eq]
      exact h1
    rw [determine_winner_players, if_pos hc, chipsTotal_map_reward]
    have hcount : t.players.countP (fun p => !p.folded) = 1 := by
      rw [List.countP_eq_length_filter]
      exact h1
    rw [hcount]
    push_cast
    ring
  · intro h2
    have hne : ¬ (((t.players.filter (fun p => !p.folded)).length == 1) = true) := by
      rw [beq_iff_eq]
      have : activeCount t = (t.players.filter (fun p => !p.folded)).length := rfl
      omega
    refine ⟨winnersCount_pos t h2, ?_⟩
    rw [determine_winner_players, if_neg hne, chipsTotal_map_reward, winners_length_eq]
    rfl

/-- Witness for C1's amended theorem at the tied-showdown table. -/
theorem potDistributionTotals_witness :
    2 ≤ activeCount tieTable ∧
    chipsTotal (determine_winner tieTable).players
      = chipsTotal tieTable.players
        + (winnersCount tieTable : Int) * Int.fdiv tieTable.pot (winnersCount tieTable) :=
  ⟨by decide, ((potDistributionTotals tieTable).2.1 (by decide)).2⟩

/-- `_get_user_data` returns the account that `get_chips`/`get_loan` observe. -/
theorem getUser_fst (s : Ledger) (id : String) : (s.getUser id).1 = getAccount s id := by
  unfold Ledger.getUser getAccount
  cases h : s id <;> simp [h]

/-- Lazy creation inside `_get_user_data` never changes an observed account. -/
theorem getAccount_getUser_snd (s : Ledger) (id a : String) :
    getAccount ((s.getUser id).2) a = getAccount s a := by
  unfold Ledger.getUser
  cases h : s id with
  | some v => simp [h]
  | none =>
    by_cases ha : a = id <;> simp [getAccount, setAccount, ha, h]

theorem getAccount_setAccount (s : Ledger) (id : String) (acc : Account) (a : String) :
    getAccount (setAccount s id acc) a = if a = id then acc else getAccount s a := by
  by_cases ha : a = id <;> simp [getAccount, setAccount, ha]

/-- Full observable effect of `remove_chips`: on failure nothing changes; on
success the source loses `amount`, the destination gains `amount` (the same
account does both when source = destination), and loans are untouched. -/
theorem remove_chips_effect (s : Ledger) (user dest : String) (amount : Int) :
    ((remove_chips s user amount dest).1 = decide (amount ≤ chipsOf s user)) ∧
    ∀ a, getAccount (remove_chips s user amount dest).2 a
        = if amount ≤ chipsOf s user then
            { getAccount s a with chips := (getAccount s a).chips - (if a = user then amount else 0) + (if a = dest then amount else 0) }
          else getAccount s a := by
  unfold remove_chips
  by_cases hle : amount ≤ chipsOf s user
  · have hg : ¬ ((s.getUser user).1.chips < amount) := by
      rw [getUser_fst]
      exact not_lt.mpr hle
    constructor
    · rw [if_neg hg]
      simp [hle]
    · intro a
      rw [if_pos hle, if_neg hg]
      simp only [getAccount_setAccount, getAccount_getUser_snd]
      by_cases had : a = dest <;> by_cases hau : a = user <;>
        by_cases hdu : dest = user <;>
        simp_all [chipsOf, loanOf, Account.mk.injEq]
  · have hg : (s.getUser user).1.chips < amount := by
      rw [getUser_fst]
      exact not_le.mp hle
    constructor
    · rw [if_pos hg]
      simp [hle]
    · intro a
      rw [if_neg hle, if_pos hg]
      simp [getAccount_getUser_snd]

/-- C6: the ledger transfer is atomic.  With insufficient source balance it
returns `false` and no observable balance or loan changes; otherwise it
returns `true`, debits the source by exactly `amount` and credits the
destination by exactly `amount` (both effects landing on the same account
when source = destination), touching no loans and no third account. -/
theorem removeChipsAtomicTransfer (s : Ledger) (user dest : String) (amount : Int) :
    (chipsOf s user < amount →
        (remove_chips s user amount dest).1 = false ∧
        (∀ a, chipsOf (remove_chips s user amount dest).2 a = chipsOf s a) ∧
        (∀ a, loanOf (remove_chips s user amount dest).2 a = loanOf s a)) ∧
    (amount ≤ chipsOf s user →
        (remove_chips s user amount dest).1 = true ∧
        (∀ a, chipsOf (remove_chips s user amount dest).2 a
            = chipsOf s a - (if a = user then amount else 0)
              + (if a = dest then amount else 0)) ∧
        (∀ a, loanOf (remove_chips s user amount dest).2 a = loanOf s a)) := by
  obtain ⟨h1, h2⟩ := remove_chips_effect s user dest amount
  constructor
  · intro hlt
    have hle : ¬ amount ≤ chipsOf s user := not_le.mpr hlt
    refine ⟨?_, ?_, ?_⟩
    · rw [h1]
      simp [hle]
    · intro a
      have h := h2 a
      rw [if_neg hle] at h
      simp [chipsOf, h]
    · intro a
      have h := h2 a
      rw [if_neg hle] at h
      simp [loanOf, h]
  · intro hle
    refine ⟨?_, ?_, ?_⟩
    · rw [h1]
      simp [hle]
    · intro a
      have h := h2 a
      rw [if_pos hle] at h
      simp [chipsOf, h]
    · intro a
      have h := h2 a
      rw [if_pos hle] at h
      simp [loanOf, h]

/-- Witness for C6: a fresh account (default 1000 chips) pays 100 into the
pool. -/
theorem removeChipsAtomicTransfer_witness :
    (100 : Int) ≤ chipsOf initialLedger "alice" ∧
    (remove_chips initialLedger "alice" 100 CASINO_POOL_ID).1 = true ∧
    chipsOf (remove_chips initialLedger "alice" 100 CASINO_POOL_ID).2 "alice" = 900 ∧
    chipsOf (remove_chips initialLedger "alice" 100 CASINO_POOL_ID).2 CASINO_POOL_ID
      = 1000100 := by
  have h := (removeChipsAtomicTransfer initialLedger "alice" CASINO_POOL_ID 100).2 (by decide)
  refine ⟨by decide, h.1, ?_, ?_⟩
  · rw [h.2.1 "alice"]
    decide
  · rw [h.2.1 CASINO_POOL_ID]
    decide

/-- Effect of `repay_loan` when called (as `_check_loan_repayment` does) with
`amount` = the full outstanding loan and enough chips to cover it: the
borrower loses the loan from chips and the debt, the pool gains it back. -/
theorem repay_loan_full_effect (s : Ledger) (user : String)
    (hne : user ≠ CASINO_POOL_ID)
    (hl : 0 < loanOf s user) (hle : loanOf s user ≤ chipsOf s user) :
    ∀ a, getAccount (repay_loan s user (loanOf s user)).2 a
      = if a = user then { chips := chipsOf s user - loanOf s user, loan := 0 }
        else if a = CASINO_POOL_ID then { getAccount s a with chips := (getAccount s a).chips + loanOf s user }
        else getAccount s a := by
  intro a
  have hcu : chipsOf ((s.getUser user).2) user = chipsOf s user := by
    simp [chipsOf, getAccount_getUser_snd]
  have hs2 : ∀ x, getAccount ((remove_chips ((s.getUser user).2) user (loanOf s user) CASINO_POOL_ID).2) x
      = if x = user then { getAccount s x with chips := (getAccount s x).chips - loanOf s user }
        else if x = CASINO_POOL_ID then { getAccount s x with chips := (getAccount s x).chips + loanOf s user }
        else getAccount s x := by
    intro x
    have h := (remove_chips_effect ((s.getUser user).2) user CASINO_POOL_ID (loanOf s user)).2 x
    rw [if_pos (by rw [hcu]; exact hle)] at h
    rw [h, getAccount_getUser_snd]
    by_cases hxu : x = user <;> by_cases hxp : x = CASINO_POOL_ID <;>
      simp_all [Account.mk.injEq]
  unfold repay_loan
  have h1 : ¬ ((s.getUser user).1.loan ≤ 0) := by
    rw [getUser_fst]
    exact not_le.mpr hl
  have h2 : ¬ ((s.getUser user).1.chips < loanOf s user) := by
    rw [getUser_fst]
    exact not_lt.mpr hle
  rw [if_neg h1, if_neg h2]
  have hmin : min (loanOf s user) ((s.getUser user).1.loan) = loanOf s user := by
    rw [getUser_fst]
    exact min_self _
  simp only [hmin, getAccount_setAccount]
  by_cases hau : a = user
  · subst hau
    rw [if_pos rfl, if_pos rfl, hs2 a, if_pos rfl]
    simp [Account.mk.injEq, chipsOf, loanOf]
  · rw [if_neg hau, if_neg hau, hs2 a, if_neg hau]

/-- `_check_loan_repayment` is a no-op (observably) when no loan is
outstanding. -/
theorem check_loan_repayment_noloan (s : Ledger) (user : String)
    (h : loanOf s user ≤ 0) :
    ∀ a, getAccount (check_loan_repayment s user).2 a = getAccount s a := by
  intro a
  unfold check_loan_repayment
  have h1 : (s.getUser user).1.loan ≤ 0 := by
    rw [getUser_fst]
    exact h
  rw [if_pos h1]
  exact getAccount_getUser_snd s user a

/-- `_check_loan_repayment` with an outstanding loan whose trigger fires:
fully repays — borrower loses the loan amount from chips and the debt drops
to 0, the pool is credited the loan back. -/
theorem check_loan_repayment_repays (s : Ledger) (user : String)
    (hne : user ≠ CASINO_POOL_ID) (hl : 0 < loanOf s user)
    (ht : autoRepayTrigger (chipsOf s user) (loanOf s user) = true)
    (hle : loanOf s user ≤ chipsOf s user) :
    ∀ a, getAccount (check_loan_repayment s user).2 a
      = if a = user then { chips := chipsOf s user - loanOf s user, loan := 0 }
        else if a = CASINO_POOL_ID then { getAccount s a with chips := (getAccount s a).chips + loanOf s user }
        else getAccount s a := by
  intro a
  unfold check_loan_repayment
  have h1 : ¬ ((s.getUser user).1.loan ≤ 0) := by
    rw [getUser_fst]
    exact not_le.mpr hl
  rw [if_neg h1]
  have ht' : autoRepayTrigger (s.getUser user).1.chips (s.getUser user).1.loan = true := by
    rw [getUser_fst]
    exact ht
  rw [if_pos ht']
  have hgl : (s.getUser user).1.loan = loanOf ((s.getUser user).2) user := by
    rw [getUser_fst]
    simp [loanOf, getAccount_getUser_snd]
  rw [hgl]
  have hl2 : 0 < loanOf ((s.getUser user).2) user := by
    simpa [loanOf, getAccount_getUser_snd] using hl
  have hle2 : loanOf ((s.getUser user).2) user ≤ chipsOf ((s.getUser user).2) user := by
    simpa [loanOf, chipsOf, getAccount_getUser_snd] using hle
  rw [repay_loan_full_effect ((s.getUser user).2) user hne hl2 hle2 a]
  simp only [chipsOf, loanOf, getAccount_getUser_snd]

/-- Observable state after the unconditional credit step of `add_chips`. -/
theorem credited_getAccount (s : Ledger) (user : String) (X : Int) :
    ∀ a, getAccount (setAccount ((s.getUser user).2) user
        { (s.getUser user).1 with chips := (s.getUser user).1.chips + X }) a
      = if a = user then { getAccount s a with chips := (getAccount s a).chips + X }
        else getAccount s a := by
  intro a
  rw [getAccount_setAccount, getUser_fst]
  by_cases hau : a = user <;> simp [hau, getAccount_getUser_snd]

/-- Effect of `add_chips` from the pool as source (the grant path) when the
recipient has no outstanding loan: pool debited, user credited, nothing else
moves, no auto-repayment fires. -/
theorem add_chips_pool_effect (s : Ledger) (user : String) (A : Int)
    (hne : user ≠ CASINO_POOL_ID) (hl : loanOf s user ≤ 0)
    (hs : A ≤ chipsOf s CASINO_POOL_ID) :
    ∀ a, getAccount (add_chips s user A (some CASINO_POOL_ID)).2 a
      = if a = user then { getAccount s a with chips := (getAccount s a).chips + A }
        else if a = CASINO_POOL_ID then { getAccount s a with chips := (getAccount s a).chips - A }
        else getAccount s a := by
  intro a
  unfold add_chips
  dsimp only
  have hg : ¬ ((s.getUser CASINO_POOL_ID).1.chips < A) := by
    rw [getUser_fst]
    exact not_lt.mpr hs
  rw [if_neg hg]
  have hs1 : ∀ x, getAccount (setAccount ((s.getUser CASINO_POOL_ID).2) CASINO_POOL_ID
      { (s.getUser CASINO_POOL_ID).1 with chips := (s.getUser CASINO_POOL_ID).1.chips - A }) x
      = if x = CASINO_POOL_ID then { getAccount s x with chips := (getAccount s x).chips - A }
        else getAccount s x := by
    intro x
    rw [getAccount_setAccount, getUser_fst]
    by_cases hxp : x = CASINO_POOL_ID <;> simp [hxp, getAccount_getUser_snd]
  set s1 := setAccount ((s.getUser CASINO_POOL_ID).2) CASINO_POOL_ID
      { (s.getUser CASINO_POOL_ID).1 with chips := (s.getUser CASINO_POOL_ID).1.chips - A } with hs1def
  have hs3 : ∀ x, getAccount (setAccount ((s1.getUser user).2) user
      { (s1.getUser user).1 with chips := (s1.getUser user).1.chips + A }) x
      = if x = user then { getAccount s1 x with chips := (getAccount s1 x).chips + A }
        else getAccount s1 x := credited_getAccount s1 user A
  have hl3 : loanOf (setAccount ((s1.getUser user).2) user
      { (s1.getUser user).1 with chips := (s1.getUser user).1.chips + A }) user ≤ 0 := by
    have := hs3 user
    simp only [loanOf, this, if_pos rfl]
    have := hs1 user
    simp [this, hne]
    exact hl
  rw [check_loan_repayment_noloan _ user hl3 a, hs3 a, hs1 a]
  by_cases hau : a = user
  · subst hau
    rw [if_pos rfl, if_pos rfl, if_neg hne]
  · rw [if_neg hau, if_neg hau]

/-- Effect of `grant_loan` on a borrower with no outstanding loan, positive
amount within the cap, and a sufficiently funded pool. -/
theorem grant_loan_effect (s : Ledger) (user : String) (A : Int)
    (hne : user ≠ CASINO_POOL_ID) (hl0 : loanOf s user = 0)
    (hA : 0 < A) (hAmax : A ≤ MAX_LOAN) (hs : A ≤ chipsOf s CASINO_POOL_ID) :
    (grant_loan s user A).1.1 = true ∧
    ∀ a, getAccount (grant_loan s user A).2 a
      = if a = user then { chips := (getAccount s a).chips + A, loan := A }
        else if a = CASINO_POOL_ID then { getAccount s a with chips := (getAccount s a).chips - A }
        else getAccount s a := by
  have hgl : (s.getUser user).1.loan = 0 := by
    rw [getUser_fst]
    exact hl0
  have hgp : (((s.getUser user).2).getUser CASINO_POOL_ID).1.chips = chipsOf s CASINO_POOL_ID := by
    rw [getUser_fst]
    simp [chipsOf, getAccount_getUser_snd]
  have hg2 : ∀ x, getAccount (((s.getUser user).2).getUser CASINO_POOL_ID).2 x = getAccount s x := by
    intro x
    rw [getAccount_getUser_snd, getAccount_getUser_snd]
  have hl2 : loanOf (((s.getUser user).2).getUser CASINO_POOL_ID).2 user ≤ 0 := by
    simp [loanOf, hg2]
    exact le_of_eq hl0
  have hs2 : A ≤ chipsOf (((s.getUser user).2).getUser CASINO_POOL_ID).2 CASINO_POOL_ID := by
    simpa [chipsOf, hg2] using hs
  have hadd := add_chips_pool_effect (((s.getUser user).2).getUser CASINO_POOL_ID).2 user A hne hl2 hs2
  constructor
  · unfold grant_loan
    rw [if_neg (by omega : ¬ (A ≤ 0)), if_neg (by rw [hgp]; exact not_lt.mpr hs),
        if_neg (by rw [hgl]; norm_num [MAX_LOAN]),
        if_neg (by rw [hgl]; have h5 := hAmax; simp only [MAX_LOAN] at h5 ⊢; omega)]
  · intro a
    unfold grant_loan
    rw [if_neg (by omega : ¬ (A ≤ 0)), if_neg (by rw [hgp]; exact not_lt.mpr hs),
        if_neg (by rw [hgl]; norm_num [MAX_LOAN]),
        if_neg (by rw [hgl]; have h5 := hAmax; simp only [MAX_LOAN] at h5 ⊢; omega)]
    rw [getAccount_setAccount]
    by_cases hau : a = user
    · subst hau
      rw [if_pos rfl, if_pos rfl]
      have hu3 := hadd a
      rw [if_pos rfl] at hu3
      rw [hu3]
      simp [hg2, Account.mk.injEq]
      rw [show (getAccount s a).loan = loanOf s a from rfl, hl0]
    · rw [if_neg hau, if_neg hau]
      have ha3 := hadd a
      rw [if_neg hau] at ha3
      rw [ha3]
      by_cases hap : a = CASINO_POOL_ID <;> simp [hap, hg2]

/-- C7 (amended): the loan lifecycle as the code implements it.  Granting a
loan of `A` (0 < A ≤ MAX_LOAN) to an account with no outstanding loan
succeeds whenever the pool holds at least `A`, debiting the pool by `A`,
crediting the borrower `A` and recording the debt `A`.  A later credit
operation automatically repays the loan in full — but the trigger is the
floating-point test `chips >= loan * 1.1` (`autoRepayTrigger`), not the exact
"balance ≥ 110% of the loan". -/
theorem loanLifecycleAmended (s : Ledger) (user : String) (A X : Int)
    (hne : user ≠ CASINO_POOL_ID) :
    (loanOf s user = 0 → 0 < A → A ≤ MAX_LOAN → A ≤ chipsOf s CASINO_POOL_ID →
        (grant_loan s user A).1.1 = true ∧
        chipsOf (grant_loan s user A).2 CASINO_POOL_ID = chipsOf s CASINO_POOL_ID - A ∧
        chipsOf (grant_loan s user A).2 user = chipsOf s user + A ∧
        loanOf (grant_loan s user A).2 user = A) ∧
    (0 < loanOf s user →
        autoRepayTrigger (chipsOf s user + X) (loanOf s user) = true →
        loanOf s user ≤ chipsOf s user + X →
        loanOf (add_chips s user X none).2 user = 0 ∧
        chipsOf (add_chips s user X none).2 user = chipsOf s user + X - loanOf s user ∧
        chipsOf (add_chips s user X none).2 CASINO_POOL_ID
          = chipsOf s CASINO_POOL_ID + loanOf s user) := by
  constructor
  · intro hl0 hA hAmax hs
    obtain ⟨hok, heff⟩ := grant_loan_effect s user A hne hl0 hA hAmax hs
    refine ⟨hok, ?_, ?_, ?_⟩
    · have h := heff CASINO_POOL_ID
      rw [if_neg (Ne.symm hne), if_pos rfl] at h
      simp [chipsOf, h]
    · have h := heff user
      rw [if_pos rfl] at h
      simp [chipsOf, h]
    · have h := heff user
      rw [if_pos rfl] at h
      simp [loanOf, h]
  · intro hl ht hle
    have key : (add_chips s user X none).2
        = (check_loan_repayment (setAccount ((s.getUser user).2) user
            { (s.getUser user).1 with chips := (s.getUser user).1.chips + X }) user).2 := rfl
    have hC := credited_getAccount s user X
    set sC := setAccount ((s.getUser user).2) user
        { (s.getUser user).1 with chips := (s.getUser user).1.chips + X } with hsCdef
    have hCu : chipsOf sC user = chipsOf s user + X := by
      have := hC user
      rw [if_pos rfl] at this
      simp [chipsOf, this]
    have hCl : loanOf sC user = loanOf s user := by
      have := hC user
      rw [if_pos rfl] at this
      simp [loanOf, this]
    have hCp : getAccount sC CASINO_POOL_ID = getAccount s CASINO_POOL_ID := by
      have := hC CASINO_POOL_ID
      rw [if_neg (Ne.symm hne)] at this
      exact this
    have heff := check_loan_repayment_repays sC user hne
      (by rw [hCl]; exact hl) (by rw [hCu, hCl]; exact ht) (by rw [hCu, hCl]; exact hle)
    refine ⟨?_, ?_, ?_⟩
    · rw [key]
      have h := heff user
      rw [if_pos rfl] at h
      simp [loanOf, h]
    · rw [key]
      have h := heff user
      rw [if_pos rfl] at h
      have h2 : chipsOf (check_loan_repayment sC user).2 user
          = chipsOf sC user - loanOf sC user := by
        simp [chipsOf, h]
      rw [h2, hCu, hCl]
    · rw [key]
      have h := heff CASINO_POOL_ID
      rw [if_neg (Ne.symm hne), if_pos rfl] at h
      have h2 : chipsOf (check_loan_repayment sC user).2 CASINO_POOL_ID
          = (getAccount sC CASINO_POOL_ID).chips + loanOf sC user := by
        simp [chipsOf, h]
      rw [h2, hCp, hCl]
      rfl

/-- Witness for C7's amended theorem: the spec's lifecycle — grant 1000 from
the seeded pool to a fresh account (balance 1000 → 2000, pool 1000000 →
999000), then a 5-chip credit fires the auto-repayment
(`autoRepayTrigger 2005 1000 = true` since the double product is exactly
1100.0) and the pool returns to 1000000. -/
theorem loanLifecycleAmended_witness :
    (loanOf initialLedger "bob" = 0 ∧ (0 : Int) < 1000 ∧ (1000 : Int) ≤ MAX_LOAN ∧
      (1000 : Int) ≤ chipsOf initialLedger CASINO_POOL_ID ∧
      (grant_loan initialLedger "bob" 1000).1.1 = true ∧
      chipsOf grantedLedger CASINO_POOL_ID = 999000) ∧
    (0 < loanOf grantedLedger "bob" ∧
      autoRepayTrigger (chipsOf grantedLedger "bob" + 5) (loanOf grantedLedger "bob") = true ∧
      loanOf grantedLedger "bob" ≤ chipsOf grantedLedger "bob" + 5 ∧
      loanOf (add_chips grantedLedger "bob" 5 none).2 "bob" = 0 ∧
      chipsOf (add_chips grantedLedger "bob" 5 none).2 CASINO_POOL_ID = 1000000) := by
  have hg := (loanLifecycleAmended initialLedger "bob" 1000 0 (by decide)).1
    (by decide) (by decide) (by decide) (by decide)
  have hr := (loanLifecycleAmended grantedLedger "bob" 0 5 (by decide)).2
    (by decide) (by decide) (by decide)
  refine ⟨⟨by decide, by decide, by decide, by decide, hg.1, ?_⟩,
          ⟨by decide, by decide, by decide, hr.1, ?_⟩⟩
  · have h := hg.2.1
    show chipsOf (grant_loan initialLedger "bob" 1000).2 CASINO_POOL_ID = 999000
    rw [h]
    decide
  · have h := hr.2.2
    rw [h]
    decide
